import Mathlib

/-!
Shallow embedding of the TikTok collection-and-merge pipeline
(`src/tiktok_data_collect.py`, `src/src/tiktok_data_collect.py`,
`src/src/tiktok_data_collect_s3.py`) together with proofs about the
comment ranker, the candidate filter, the enrichment step, the feed
walker and the dataset merge.
-/

/-- Lexicographic comparison of char lists by Unicode code point, mirroring
Python's `<` on `str` (and agreeing with Lean's `String.lt`): the empty
string is smaller than any non-empty string, and `a :: as < b :: bs` iff
`a < b` or `a = b` and `as < bs`. -/
def charListLt : List Char → List Char → Bool
  | [], [] => false
  | [], _ :: _ => true
  | _ :: _, [] => false
  | a :: as, b :: bs => decide (a < b) || (decide (a = b) && charListLt as bs)

/-- Python's `<` on the comment-text strings. -/
def textLt (a b : String) : Bool := charListLt a.data b.data

theorem charListLt_irrefl : ∀ a : List Char, charListLt a a = false
  | [] => rfl
  | x :: xs => by simp [charListLt, charListLt_irrefl xs]

theorem charListLt_trans : ∀ {a b c : List Char}, charListLt a b = true →
    charListLt b c = true → charListLt a c = true
  | [], b, c, hab, hbc => by
    cases c with
    | nil => cases b <;> simp [charListLt] at hab hbc
    | cons z zs => simp [charListLt]
  | x :: xs, b, c, hab, hbc => by
    cases b with
    | nil => simp [charListLt] at hab
    | cons y ys =>
      cases c with
      | nil => simp [charListLt] at hbc
      | cons z zs =>
        simp only [charListLt, Bool.or_eq_true, Bool.and_eq_true,
          decide_eq_true_eq] at hab hbc ⊢
        rcases hab with h1 | ⟨he1, h1'⟩
        · rcases hbc with h2 | ⟨he2, h2'⟩
          · exact Or.inl (lt_trans h1 h2)
          · exact Or.inl (he2 ▸ h1)
        · rcases hbc with h2 | ⟨he2, h2'⟩
          · exact Or.inl (he1 ▸ h2)
          · exact Or.inr ⟨he1.trans he2, charListLt_trans h1' h2'⟩

theorem charListLt_total : ∀ a b : List Char,
    charListLt a b = true ∨ charListLt b a = true ∨ a = b
  | [], [] => Or.inr (Or.inr rfl)
  | [], _ :: _ => Or.inl (by simp [charListLt])
  | _ :: _, [] => Or.inr (Or.inl (by simp [charListLt]))
  | x :: xs, y :: ys => by
    rcases lt_trichotomy x y with h | h | h
    · exact Or.inl (by simp [charListLt, h])
    · subst h
      rcases charListLt_total xs ys with h' | h' | h'
      · exact Or.inl (by simp [charListLt, h'])
      · exact Or.inr (Or.inl (by simp [charListLt, h']))
      · exact Or.inr (Or.inr (by rw [h']))
    · exact Or.inr (Or.inl (by simp [charListLt, h]))

theorem charListLt_asymm {a b : List Char} (h1 : charListLt a b = true)
    (h2 : charListLt b a = true) : False := by
  have := charListLt_trans h1 h2
  rw [charListLt_irrefl] at this
  exact Bool.false_ne_true this

theorem charListLt_not_lt_trans {a b c : List Char}
    (h1 : ¬ charListLt a b = true) (h2 : ¬ charListLt b c = true) :
    ¬ charListLt a c = true := by
  intro hac
  rcases charListLt_total a b with h | h | h
  · exact h1 h
  · exact h2 (charListLt_trans h hac)
  · subst h; exact h2 hac

/-- Python's stable descending sort on `(digg_count, text)` tuples compares
tuples lexicographically; `pairGe a b` says `a` may stand before `b` in the
descending order: `a`'s score is larger, or the scores tie and `a`'s text is
not smaller (so that equal scores get texts in descending order). -/
def pairGe (a b : Nat × String) : Bool :=
  decide (b.1 < a.1) || (decide (a.1 = b.1) && ! textLt a.2 b.2)

/-- The propositional form of `pairGe`, used as the sorting relation. -/
def rankRel (a b : Nat × String) : Prop := pairGe a b = true

instance : DecidableRel rankRel := fun a b => by
  unfold rankRel; infer_instance

instance : IsTotal (Nat × String) rankRel := by
  constructor
  intro a b
  simp only [rankRel, pairGe, Bool.or_eq_true, Bool.and_eq_true,
    decide_eq_true_eq, Bool.not_eq_true', Bool.not_eq_true]
  rcases lt_trichotomy a.1 b.1 with h | h | h
  · exact Or.inr (Or.inl h)
  · by_cases ht : textLt a.2 b.2 = true
    · refine Or.inr (Or.inr ⟨h.symm, ?_⟩)
      unfold textLt at ht ⊢
      by_contra hc
      rw [Bool.not_eq_false] at hc
      exact charListLt_asymm ht hc
    · exact Or.inl (Or.inr ⟨h, Bool.not_eq_true _ ▸ ht⟩)
  · exact Or.inl (Or.inl h)

instance : IsTrans (Nat × String) rankRel := by
  constructor
  intro a b c hab hbc
  simp only [rankRel, pairGe, Bool.or_eq_true, Bool.and_eq_true,
    decide_eq_true_eq, Bool.not_eq_true'] at hab hbc ⊢
  rcases hab with h1 | ⟨he1, h1'⟩
  · rcases hbc with h2 | ⟨he2, h2'⟩
    · exact Or.inl (lt_trans h2 h1)
    · exact Or.inl (he2 ▸ h1)
  · rcases hbc with h2 | ⟨he2, h2'⟩
    · exact Or.inl (he1 ▸ h2)
    · refine Or.inr ⟨he1.trans he2, ?_⟩
      unfold textLt at h1' h2' ⊢
      have hn : ¬ charListLt a.2.data c.2.data = true :=
        charListLt_not_lt_trans (b := b.2.data) (by simp [h1']) (by simp [h2'])
      rw [Bool.eq_false_iff]
      exact hn

/-- The `comments.sort(reverse=True)` step of `fetch_top_comments`
(`src/src/tiktok_data_collect.py` line 85, `src/src/tiktok_data_collect_s3.py`
line 174, `src/tiktok_data_collect.py` line 50): a stable descending sort of
the collected `(digg_count, text)` pairs. -/
def sortPairs (comments : List (Nat × String)) : List (Nat × String) :=
  comments.insertionSort rankRel

/-- The comment ranker `fetch_top_comments` after the page of comments has
been collected into `(digg_count, text)` pairs: sort descending, take the
first `n`, keep the texts (`return [c[1] for c in comments[:n]]`). An empty
collected page returns `[]` (the code's early `return []`, which equals this
function at `[]`). -/
def fetch_top_comments (comments : List (Nat × String)) (n : Nat) : List String :=
  ((sortPairs comments).take n).map Prod.snd

example : fetch_top_comments [(5, "a"), (5, "b")] 5 = ["b", "a"] := by decide
example : fetch_top_comments [(1, "x"), (7, "y"), (3, "z")] 2 = ["y", "z"] := by decide
example : fetch_top_comments [] 5 = [] := rfl

/-- The fields of one fetched video the pipeline reads: identity, creation
time (epoch seconds), description, author snapshot, engagement snapshot and
cover-image URL (`videoDict["video"]["cover"]`; the empty string models a
missing or empty cover URL). -/
structure Candidate where
  id : String
  createTime : Int
  desc : String
  userId : String
  username : String
  followerCount : Int
  playCount : Int
  diggCount : Int
  shareCount : Int
  commentCount : Int
  repostCount : Int
  coverUrl : String
deriving DecidableEq, Repr

/-- One persisted row (the `row` dict of the scripts). `thumbnail_location`
models `thumbnail_s3_key` in the s3 variant and `thumbnail_path` in the plain
variants; `repost_count` is present only in the s3 variant's row and is
carried unchanged from the candidate. -/
structure CollectedRow where
  video_id : String
  posted_ts : Int
  description : String
  author_id : String
  author_name : String
  follower_count : Int
  view_count : Int
  like_count : Int
  share_count : Int
  comment_count : Int
  repost_count : Int
  thumbnail_location : String
  top_comments : List String
deriving DecidableEq, Repr

/-- Result of one call to the dataset merge: the table stored afterwards,
the returned row count, and whether a write to storage happened. -/
structure MergeResult where
  table : List CollectedRow
  count : Nat
  wrote : Bool
deriving DecidableEq, Repr

/-- The dataset merge `save_batch_to_s3` (`src/src/tiktok_data_collect_s3.py`
lines 209-254), identical in logic to the end-of-run merge in `main` of
`src/src/tiktok_data_collect.py` (lines 244-272): load the existing table if
any; filter the incoming rows to video ids not already present
(`new_df = new_df[~new_df['video_id'].isin(existing_video_ids)]`); if any
rows survive, append them and write back, returning the combined length;
otherwise leave the table untouched and return the existing length. When no
table exists yet, the incoming rows are written as-is with no filtering.
Storage writes are modelled as succeeding. -/
def save_batch_to_s3 (stored : Option (List CollectedRow))
    (rows : List CollectedRow) : MergeResult :=
  match stored with
  | some existing_df =>
    let existing_video_ids := existing_df.map (·.video_id)
    let new_df := rows.filter (fun r => ! existing_video_ids.contains r.video_id)
    if 0 < new_df.length then
      { table := existing_df ++ new_df,
        count := existing_df.length + new_df.length,
        wrote := true }
    else
      { table := existing_df, count := existing_df.length, wrote := false }
  | none => { table := rows, count := rows.length, wrote := true }

/-- The recency decision of the current filter
(`src/src/tiktok_data_collect.py` lines 152-157, the "new filter logic"):
`if video_timestamp < ONE_YEAR_AGO: continue`, i.e. reject exactly when the
timestamp is strictly older than the single cutoff. -/
def recencyReject (one_year_ago video_timestamp : Int) : Bool :=
  video_timestamp < one_year_ago

/-- The recency decision of the legacy variant (`src/tiktok_data_collect.py`
lines 107-111): `if not (TARGET_START <= ts <= TARGET_END): continue`, an
exact-day window closed at both ends. -/
def legacyRecencyReject (target_start target_end ts : Int) : Bool :=
  ! (decide (target_start ≤ ts) && decide (ts ≤ target_end))

/-- Outcome of the cover-image HTTP GET: a raised exception, or a response
with a status code. -/
inductive HttpResult
  | transportError
  | response (status : Nat)
deriving DecidableEq, Repr

/-- Behaviour of the per-candidate collaborators: whether the thumbnail
artifact already exists at its deterministic location, the cover-image GET
outcome, whether decode-resize-store of the cover succeeds, whether the
comment fetch raises, and the page of `(digg_count, text)` pairs it yields
otherwise. -/
structure CandEnv where
  thumbExists : Bool
  http : HttpResult
  normalizeOk : Bool
  commentFetchFails : Bool
  commentPage : List (Nat × String)
deriving DecidableEq, Repr

/-- Collaborator invocation counts for one candidate: cover-image GETs,
Media Normalizer (decode/resize/encode) calls, comment-page fetches. -/
structure Calls where
  imageFetch : Nat
  normalize : Nat
  commentFetch : Nat
deriving DecidableEq, Repr

/-- Result of enriching one accepted candidate: the emitted row if any, the
collaborator calls made, and whether a new thumbnail artifact was stored. -/
structure EnrichResult where
  row : Option CollectedRow
  calls : Calls
  thumbStored : Bool
deriving DecidableEq, Repr

/-- The s3 thumbnail key `f"{S3_THUMBNAILS_PREFIX}{video.id}.jpg"`. -/
def thumbKeyS3 (id : String) : String := "raw/thumbnails/" ++ id ++ ".jpg"

/-- The local thumbnail path `THUMBS_DIR / f"{video.id}.jpg"` of the plain
variants. -/
def thumbPathPlain (id : String) : String :=
  "tiktok_data/thumbnails/" ++ id ++ ".jpg"

/-- The row dict as first assembled from the candidate's already-fetched
metadata (`src/src/tiktok_data_collect_s3.py` lines 311-324), before
`top_comments` is assigned. -/
def baseRow (c : Candidate) (thumbLoc : String) : CollectedRow :=
  { video_id := c.id, posted_ts := c.createTime, description := c.desc,
    author_id := c.userId, author_name := c.username,
    follower_count := c.followerCount, view_count := c.playCount,
    like_count := c.diggCount, share_count := c.shareCount,
    comment_count := c.commentCount, repost_count := c.repostCount,
    thumbnail_location := thumbLoc, top_comments := [] }

/-- The comment step shared by both current variants
(`src/src/tiktok_data_collect.py` lines 207-212,
`src/src/tiktok_data_collect_s3.py` lines 348-356): if
`int(stats.get('commentCount', 0)) > 0`, invoke `fetch_top_comments`
(counted as one comment-page fetch; any failure inside it yields `[]`),
otherwise skip the fetch and assign `[]`. Returns the assigned
`top_comments` and the number of comment-fetch invocations. -/
def commentStep (env : CandEnv) (c : Candidate) : List String × Nat :=
  if 0 < c.commentCount then
    (if env.commentFetchFails then [] else fetch_top_comments env.commentPage 5, 1)
  else ([], 0)

/-- Enrichment of one candidate in the s3 variant
(`src/src/tiktok_data_collect_s3.py` lines 300-358): if no artifact exists
for the video id: a missing/empty cover URL drops the candidate
(`continue`); a raised GET drops it; a non-200 status drops it; a failed
decode/resize/upload drops it; otherwise the artifact is stored. Then the
comment step runs and the row is emitted. When the artifact already exists,
no cover fetch and no normalization happen. -/
def enrich_s3 (env : CandEnv) (c : Candidate) : EnrichResult :=
  if env.thumbExists then
    { row := some { baseRow c (thumbKeyS3 c.id) with
        top_comments := (commentStep env c).1 },
      calls := ⟨0, 0, (commentStep env c).2⟩, thumbStored := false }
  else if c.coverUrl = "" then
    { row := none, calls := ⟨0, 0, 0⟩, thumbStored := false }
  else
    match env.http with
    | .transportError => { row := none, calls := ⟨1, 0, 0⟩, thumbStored := false }
    | .response status =>
      if status = 200 then
        if env.normalizeOk then
          { row := some { baseRow c (thumbKeyS3 c.id) with
              top_comments := (commentStep env c).1 },
            calls := ⟨1, 1, (commentStep env c).2⟩, thumbStored := true }
        else
          { row := none, calls := ⟨1, 1, 0⟩, thumbStored := false }
      else
        { row := none, calls := ⟨1, 0, 0⟩, thumbStored := false }

/-- Enrichment of one candidate in the plain variant
(`src/src/tiktok_data_collect.py` lines 186-214): if no artifact exists, a
raised GET or a raised `resize_and_save` drops the candidate (`continue` in
the `except` block); but on a non-200 status the code only prints
`"Failed to download thumbnail"` and falls through, so the row is still
emitted with a `thumbnail_path` whose file was never written. When the
artifact already exists, no cover fetch and no normalization happen. -/
def enrich_plain (env : CandEnv) (c : Candidate) : EnrichResult :=
  if env.thumbExists then
    { row := some { baseRow c (thumbPathPlain c.id) with
        top_comments := (commentStep env c).1 },
      calls := ⟨0, 0, (commentStep env c).2⟩, thumbStored := false }
  else
    match env.http with
    | .transportError => { row := none, calls := ⟨1, 0, 0⟩, thumbStored := false }
    | .response status =>
      if status = 200 then
        if env.normalizeOk then
          { row := some { baseRow c (thumbPathPlain c.id) with
              top_comments := (commentStep env c).1 },
            calls := ⟨1, 1, (commentStep env c).2⟩, thumbStored := true }
        else
          { row := none, calls := ⟨1, 1, 0⟩, thumbStored := false }
      else
        { row := some { baseRow c (thumbPathPlain c.id) with
            top_comments := (commentStep env c).1 },
          calls := ⟨1, 0, (commentStep env c).2⟩, thumbStored := false }

/-- Walker state carried through one search term's loop: the global attempt
counter, the per-term success counter `videos_processed`, and the
accumulated batch of rows. -/
structure WalkState where
  attempts : Nat
  videos_processed : Nat
  rows : List CollectedRow
deriving DecidableEq, Repr

/-- The initial walker state of a run (`rows = []`, `attempts = 0`). -/
def walkInit : WalkState := ⟨0, 0, []⟩

/-- The per-term video loop of `main` in `src/src/tiktok_data_collect.py`
(lines 144-229): for each candidate the feed yields, first break if
`attempts >= REQUEST_CAP`; else count the attempt; skip the candidate if its
timestamp is older than the cutoff; enrich (a dropped candidate just
continues); on success append the row, bump `videos_processed`, and break if
`videos_processed >= VIDEOS_PER_TAG`. `env` gives each candidate's
collaborator behaviour. -/
def walkTerm (cap target : Nat) (cutoff : Int) (env : Candidate → CandEnv) :
    List Candidate → WalkState → WalkState
  | [], s => s
  | video :: rest, s =>
    if cap ≤ s.attempts then s
    else
      let s1 : WalkState := { s with attempts := s.attempts + 1 }
      if recencyReject cutoff video.createTime then
        walkTerm cap target cutoff env rest s1
      else
        match (enrich_plain (env video) video).row with
        | none => walkTerm cap target cutoff env rest s1
        | some row =>
          let s2 : WalkState := { s1 with
            rows := s1.rows ++ [row],
            videos_processed := s1.videos_processed + 1 }
          if target ≤ s2.videos_processed then s2
          else walkTerm cap target cutoff env rest s2

/-- A concrete candidate for witnesses and counterexamples. -/
def mkCand (id : String) : Candidate :=
  { id := id, createTime := 10, desc := "d", userId := "u", username := "n",
    followerCount := 1, playCount := 2, diggCount := 3, shareCount := 4,
    commentCount := 0, repostCount := 0, coverUrl := "http" }

/-- A concrete row for witnesses and counterexamples. -/
def mkRow (id : String) : CollectedRow := baseRow (mkCand id) (thumbKeyS3 id)

/-- A collaborator environment in which every step succeeds and the
thumbnail already exists. -/
def envOk : CandEnv :=
  { thumbExists := true, http := .response 200, normalizeOk := true,
    commentFetchFails := false, commentPage := [] }

example : (walkTerm 3 1 0 (fun _ => envOk) (List.replicate 10 (mkCand "v1")) walkInit).attempts = 1 := by decide
example : (walkTerm 3 5 0 (fun _ => envOk) (List.replicate 10 (mkCand "v1")) walkInit).attempts = 3 := by decide
example : ((save_batch_to_s3 (some [mkRow "A", mkRow "B"]) [mkRow "A", mkRow "C", mkRow "C", mkRow "D"]).table.map (·.video_id)) = ["A", "B", "C", "C", "D"] := by decide

theorem contains_true_iff {l : List String} {a : String} :
    l.contains a = true ↔ a ∈ l := by
  unfold List.contains
  exact List.elem_iff

theorem contains_false_iff {l : List String} {a : String} :
    l.contains a = false ↔ a ∉ l := by
  rw [← Bool.not_eq_true, not_iff_not]
  exact contains_true_iff

theorem save_batch_mem_ids (stored : Option (List CollectedRow))
    (rows : List CollectedRow) (r : CollectedRow) (hr : r ∈ rows) :
    r.video_id ∈ (save_batch_to_s3 stored rows).table.map (·.video_id) := by
  cases stored with
  | none =>
    simp only [save_batch_to_s3, List.mem_map]
    exact ⟨r, hr, rfl⟩
  | some existing =>
    simp only [save_batch_to_s3]
    by_cases hmem : r.video_id ∈ existing.map (·.video_id)
    · split
      · rw [List.map_append]
        exact List.mem_append.mpr (Or.inl hmem)
      · exact hmem
    · have hf : r ∈ rows.filter
          (fun x => ! (existing.map (·.video_id)).contains x.video_id) := by
        refine List.mem_filter.mpr ⟨hr, ?_⟩
        simp only [Bool.not_eq_true', contains_false_iff]
        exact hmem
      split
      · rw [List.map_append]
        exact List.mem_append.mpr (Or.inr (List.mem_map_of_mem _ hf))
      · rename_i hlen
        exfalso
        have : rows.filter
            (fun x => ! (existing.map (·.video_id)).contains x.video_id) = [] := by
          have := Nat.eq_zero_of_not_pos hlen
          exact List.length_eq_zero.mp this
        rw [this] at hf
        exact absurd hf (List.not_mem_nil _)

/-- C2: merging the same batch twice into a persisted table yields the same
table as merging it once — on the second merge every incoming video id is
already present, the filtered batch is empty, no write occurs, the stored
table is unchanged and the existing row count is returned. The second
conjunct records that the returned count is always the stored table's
length, so the second call returns the count of the first unchanged. -/
theorem merge_idempotent (stored : Option (List CollectedRow))
    (rows : List CollectedRow) :
    save_batch_to_s3 (some (save_batch_to_s3 stored rows).table) rows =
      { table := (save_batch_to_s3 stored rows).table,
        count := (save_batch_to_s3 stored rows).table.length,
        wrote := false } ∧
    (save_batch_to_s3 stored rows).count =
      (save_batch_to_s3 stored rows).table.length := by
  constructor
  · have hfilter : rows.filter
        (fun x => ! ((save_batch_to_s3 stored rows).table.map
          (·.video_id)).contains x.video_id) = [] := by
      rw [List.filter_eq_nil_iff]
      intro x hx
      simp only [Bool.not_eq_true, Bool.not_eq_false, contains_true_iff]
      rw [Bool.not_eq_false', contains_true_iff]
      exact save_batch_mem_ids stored rows x hx
    conv_lhs => rw [save_batch_to_s3]
    rw [hfilter]
    simp
  · cases stored with
    | none => simp [save_batch_to_s3]
    | some existing =>
      simp only [save_batch_to_s3]
      split <;> simp

/-- C1 (counterexample): with existing ids `{A, B}` and incoming batch
`[A, C, C, D]`, the merged table's id column is `[A, B, C, C, D]` — the
duplicate `C` inside the batch does NOT collapse to one row, so two rows
share a video id after the merge; the first write (no existing table)
likewise keeps both `C` rows. -/
theorem merge_scenario_counterexample :
    ((save_batch_to_s3 (some [mkRow "A", mkRow "B"])
        [mkRow "A", mkRow "C", mkRow "C", mkRow "D"]).table.map (·.video_id))
      = ["A", "B", "C", "C", "D"] ∧
    ¬ (((save_batch_to_s3 (some [mkRow "A", mkRow "B"])
        [mkRow "A", mkRow "C", mkRow "C", mkRow "D"]).table.map
          (·.video_id)).Nodup) ∧
    ¬ (((save_batch_to_s3 none
        [mkRow "A", mkRow "C", mkRow "C", mkRow "D"]).table.map
          (·.video_id)).Nodup) := by
  decide

/-- C1 (amended): the merge never adds an incoming row whose video id is
already in the existing table, so when the existing table's ids and the
incoming batch's ids are each duplicate-free, the merged table's ids are
duplicate-free; the same holds for the first write. Duplicates inside the
batch itself are not collapsed. -/
theorem merge_nodup_of_nodup (existing rows : List CollectedRow)
    (hex : (existing.map (·.video_id)).Nodup)
    (hrows : (rows.map (·.video_id)).Nodup) :
    (((save_batch_to_s3 (some existing) rows).table.map (·.video_id)).Nodup) ∧
    (((save_batch_to_s3 none rows).table.map (·.video_id)).Nodup) := by
  refine ⟨?_, by simpa [save_batch_to_s3] using hrows⟩
  simp only [save_batch_to_s3]
  split
  · rw [List.map_append, List.nodup_append]
    refine ⟨hex, ?_, ?_⟩
    · exact ((List.filter_sublist rows).map (·.video_id)).nodup hrows
    · intro a ha hb
      rcases List.mem_map.mp hb with ⟨r, hrf, rfl⟩
      have hnot := (List.mem_filter.mp hrf).2
      simp only [Bool.not_eq_true', contains_false_iff] at hnot
      exact hnot ha
  · exact hex

theorem merge_nodup_of_nodup_witness :
    ([mkRow "A", mkRow "B"].map (·.video_id)).Nodup ∧
    ([mkRow "A", mkRow "C", mkRow "D"].map (·.video_id)).Nodup ∧
    ((save_batch_to_s3 (some [mkRow "A", mkRow "B"])
        [mkRow "A", mkRow "C", mkRow "D"]).table.map (·.video_id)).Nodup :=
  ⟨by decide, by decide,
    (merge_nodup_of_nodup [mkRow "A", mkRow "B"]
      [mkRow "A", mkRow "C", mkRow "D"] (by decide) (by decide)).1⟩

/-- C3: for every input of M `(engagement-score, text)` pairs and target K,
the comment ranker returns exactly `min M K` texts, the ranked prefix it was
taken from has descending engagement scores, and the empty input yields the
empty list rather than an error. -/
theorem comment_ranker_spec (comments : List (Nat × String)) (n : Nat) :
    (fetch_top_comments comments n).length = min comments.length n ∧
    (((sortPairs comments).take n).map Prod.fst).Sorted (fun a b => b ≤ a) ∧
    fetch_top_comments [] n = [] := by
  refine ⟨?_, ?_, by simp [fetch_top_comments, sortPairs]⟩
  · simp only [fetch_top_comments, sortPairs, List.length_map, List.length_take,
      List.length_insertionSort]
    exact Nat.min_comm n comments.length
  · have hs : (sortPairs comments).Sorted rankRel :=
      List.sorted_insertionSort rankRel comments
    have ht : ((sortPairs comments).take n).Pairwise rankRel :=
      hs.sublist (List.take_sublist n _)
    rw [List.Sorted, List.pairwise_map]
    refine ht.imp ?_
    intro a b h
    simp only [rankRel, pairGe, Bool.or_eq_true, Bool.and_eq_true,
      decide_eq_true_eq] at h
    rcases h with h | ⟨h, _⟩
    · exact le_of_lt h
    · exact le_of_eq h.symm

/-- C10: when two comments tie on engagement score, the ranker orders them
by descending lexicographic text comparison (a consequence of sorting the
`(score, text)` tuples in reverse), not by arrival order: in the sorted
list, an earlier pair with the same score never has lexicographically
smaller text than a later one, and on the input `[(5, "a"), (5, "b")]` the
output `["b", "a"]` differs from the arrival order of the texts. -/
theorem comment_tie_break (comments : List (Nat × String)) :
    (sortPairs comments).Pairwise
      (fun a b => a.1 = b.1 → textLt a.2 b.2 = false) ∧
    fetch_top_comments [(5, "a"), (5, "b")] 5 = ["b", "a"] ∧
    ["b", "a"] ≠ [(5, "a"), (5, "b")].map Prod.snd := by
  refine ⟨?_, by decide, by decide⟩
  have hs : (sortPairs comments).Sorted rankRel :=
    List.sorted_insertionSort rankRel comments
  refine hs.imp ?_
  intro a b h he
  simp only [rankRel, pairGe, Bool.or_eq_true, Bool.and_eq_true,
    decide_eq_true_eq, Bool.not_eq_true'] at h
  rcases h with h | ⟨_, h⟩
  · exact absurd h (he ▸ lt_irrefl a.1)
  · exact h

/-- C9 (counterexample): the legacy variant's recency decision is a closed
exact-day window, not a single cutoff — with `TARGET_START = 100` and
`TARGET_END = 200`, a candidate at timestamp `300` is rejected although it
is not strictly older than the window (it is newer than its end), so a
candidate IS rejected for being too recent. -/
theorem legacy_recency_counterexample :
    legacyRecencyReject 100 200 300 = true ∧
    ¬ ((300 : Int) < 100) ∧ (200 : Int) < 300 := by
  decide

/-- C9 (amended): the current filter ("new filter logic",
`src/src/tiktok_data_collect.py`) rejects a candidate exactly when its
creation timestamp is strictly older than the single cutoff, so a timestamp
equal to the cutoff is accepted and no candidate is rejected for being too
recent; the legacy variant (`src/tiktok_data_collect.py`) instead uses a
closed day window and also rejects candidates newer than the window's
end. -/
theorem recency_single_cutoff (one_year_ago ts : Int) :
    (recencyReject one_year_ago ts = true ↔ ts < one_year_ago) ∧
    recencyReject one_year_ago one_year_ago = false := by
  constructor
  · simp [recencyReject]
  · simp [recencyReject]

/-- C5: for every candidate whose engagement snapshot reports
`comment_count = 0`, neither variant ever invokes the comment-page fetch,
and whenever a row is emitted its comment sample is the empty list. -/
theorem comment_skip (env : CandEnv) (c : Candidate)
    (h : c.commentCount = 0) :
    (enrich_s3 env c).calls.commentFetch = 0 ∧
    (∀ r, (enrich_s3 env c).row = some r → r.top_comments = []) ∧
    (enrich_plain env c).calls.commentFetch = 0 ∧
    (∀ r, (enrich_plain env c).row = some r → r.top_comments = []) := by
  obtain ⟨te, http, nok, cff, page⟩ := env
  have hc : commentStep ⟨te, http, nok, cff, page⟩ c = ([], 0) := by
    simp [commentStep, h]
  refine ⟨?_, ?_, ?_, ?_⟩ <;>
    cases te <;>
    rcases http with _ | status <;>
    cases nok <;>
    simp only [enrich_s3, enrich_plain, hc] <;>
    (try split_ifs) <;>
    simp

theorem comment_skip_witness :
    (mkCand "w5").commentCount = 0 ∧
    (enrich_s3 envOk (mkCand "w5")).calls.commentFetch = 0 :=
  ⟨by decide, (comment_skip envOk (mkCand "w5") (by decide)).1⟩

/-- C6: when the thumbnail artifact already exists for a video id, neither
variant invokes the image-fetch collaborator or the Media Normalizer for
it, and no artifact is stored (the existing one is never overwritten). -/
theorem thumb_idempotent (env : CandEnv) (c : Candidate)
    (h : env.thumbExists = true) :
    (enrich_s3 env c).calls.imageFetch = 0 ∧
    (enrich_s3 env c).calls.normalize = 0 ∧
    (enrich_s3 env c).thumbStored = false ∧
    (enrich_plain env c).calls.imageFetch = 0 ∧
    (enrich_plain env c).calls.normalize = 0 ∧
    (enrich_plain env c).thumbStored = false := by
  simp [enrich_s3, enrich_plain, h]

theorem thumb_idempotent_witness :
    envOk.thumbExists = true ∧
    (enrich_s3 envOk (mkCand "w6")).calls.imageFetch = 0 :=
  ⟨rfl, (thumb_idempotent envOk (mkCand "w6") rfl).1⟩

/-- A thumbnail-step environment with no pre-existing artifact: GET outcome
`r`, decode/store success `nok`. -/
def envNoThumb (r : HttpResult) (nok : Bool) : CandEnv :=
  { thumbExists := false, http := r, normalizeOk := nok,
    commentFetchFails := false, commentPage := [] }

/-- C8 (evaluation at the failing input): in the s3 variant, transport
failure, non-success status and decode/store failure each drop the
candidate with no row and no stored artifact, and the walker moves on to
the next candidate instead of aborting (here the following candidate still
yields its row). In the plain variant at the same failing input (no
artifact yet, HTTP 404) the row IS emitted — the code prints the failure
and falls through without `continue` — with a thumbnail path whose file was
never written. -/
theorem thumbnail_failure_eval :
    (enrich_s3 (envNoThumb .transportError true) (mkCand "x")).row = none ∧
    (enrich_s3 (envNoThumb (.response 404) true) (mkCand "x")).row = none ∧
    (enrich_s3 (envNoThumb (.response 200) false) (mkCand "x")).row = none ∧
    (enrich_s3 (envNoThumb (.response 404) true) (mkCand "x")).thumbStored
      = false ∧
    ((walkTerm 5 5 0
        (fun cand => if cand.id = "bad" then envNoThumb .transportError true
          else envOk)
        [mkCand "bad", mkCand "good"] walkInit).rows.map (·.video_id))
      = ["good"] ∧
    (enrich_plain (envNoThumb (.response 404) true) (mkCand "x")).row
      = some (baseRow (mkCand "x") (thumbPathPlain "x")) ∧
    (enrich_plain (envNoThumb (.response 404) true) (mkCand "x")).thumbStored
      = false := by
  decide

theorem walkTerm_attempts_le (cap target : Nat) (cutoff : Int)
    (env : Candidate → CandEnv) :
    ∀ (feed : List Candidate) (s : WalkState), s.attempts ≤ cap →
      (walkTerm cap target cutoff env feed s).attempts ≤ cap
  | [], s, h => h
  | c :: rest, s, h => by
    simp only [walkTerm]
    split
    · exact h
    · rename_i hc
      have h1 : s.attempts + 1 ≤ cap := by omega
      split
      · exact walkTerm_attempts_le cap target cutoff env rest _ h1
      · split
        · exact walkTerm_attempts_le cap target cutoff env rest _ h1
        · split
          · exact h1
          · exact walkTerm_attempts_le cap target cutoff env rest _ h1

theorem walkTerm_attempts_eq (cap target : Nat) (cutoff : Int)
    (env : Candidate → CandEnv) (htarget : cap < target) :
    ∀ (feed : List Candidate) (s : WalkState),
      s.videos_processed ≤ s.attempts → s.attempts ≤ cap →
      cap ≤ s.attempts + feed.length →
      (walkTerm cap target cutoff env feed s).attempts = cap
  | [], s, hps, hle, hlen => by
    simp only [walkTerm]
    simp only [List.length_nil, Nat.add_zero] at hlen
    omega
  | c :: rest, s, hps, hle, hlen => by
    simp only [walkTerm]
    split
    · omega
    · rename_i hc
      simp only [List.length_cons] at hlen
      split
      · exact walkTerm_attempts_eq cap target cutoff env htarget rest _
          (by dsimp only; omega) (by dsimp only; omega) (by dsimp only; omega)
      · split
        · exact walkTerm_attempts_eq cap target cutoff env htarget rest _
            (by dsimp only; omega) (by dsimp only; omega) (by dsimp only; omega)
        · split
          · rename_i hstop
            exfalso
            have hstop2 : target ≤ s.videos_processed + 1 := hstop
            omega
          · exact walkTerm_attempts_eq cap target cutoff env htarget rest _
              (by dsimp only; omega) (by dsimp only; omega) (by dsimp only; omega)

/-- C7 (counterexample): with attempt cap 3, per-term target 1 and a feed of
10 eligible candidates that all enrich successfully, the walker stops after
1 pulled attempt (the per-term target breaks the loop first), not after
exactly 3. -/
theorem attempt_cap_counterexample :
    (walkTerm 3 1 0 (fun _ => envOk)
      (List.replicate 10 (mkCand "v1")) walkInit).attempts = 1 ∧
    (1 : Nat) ≠ 3 := by
  decide

/-- C7 (amended): the attempt counter counts every pulled candidate
whatever its outcome and never exceeds the cap; when the feed yields at
least `cap` candidates and the per-term success target cannot trigger first
(here: the target exceeds the cap), the walker stops after exactly `cap`
pulled attempts, regardless of the candidates' outcomes (`env` and the feed
are arbitrary). -/
theorem attempt_cap_exact (cap target : Nat) (cutoff : Int)
    (env : Candidate → CandEnv) (feed : List Candidate)
    (hlen : cap ≤ feed.length) (htarget : cap < target) :
    (walkTerm cap target cutoff env feed walkInit).attempts = cap ∧
    ∀ g : List Candidate,
      (walkTerm cap target cutoff env g walkInit).attempts ≤ cap := by
  constructor
  · exact walkTerm_attempts_eq cap target cutoff env htarget feed walkInit
      (Nat.le_refl 0) (Nat.zero_le cap) (by simpa [walkInit] using hlen)
  · intro g
    exact walkTerm_attempts_le cap target cutoff env g walkInit (Nat.zero_le cap)

theorem attempt_cap_exact_witness :
    2 ≤ ([mkCand "a", mkCand "b", mkCand "c"] : List Candidate).length ∧
    2 < 4 ∧
    (walkTerm 2 4 0 (fun _ => envOk)
      [mkCand "a", mkCand "b", mkCand "c"] walkInit).attempts = 2 :=
  ⟨by decide, by decide,
    (attempt_cap_exact 2 4 0 (fun _ => envOk)
      [mkCand "a", mkCand "b", mkCand "c"] (by decide) (by decide)).1⟩

/-- C4 (counterexample): the per-candidate filter consults no dedup set —
feeding the same eligible candidate twice in one run processes and emits it
twice, so the batch holds two rows with the same video id. -/
theorem dedup_filter_counterexample :
    ((walkTerm 5 5 0 (fun _ => envOk)
        [mkCand "v1", mkCand "v1"] walkInit).rows.map (·.video_id))
      = ["v1", "v1"] ∧
    ¬ (["v1", "v1"] : List String).Nodup := by
  decide

/-- C4 (amended): the filter's only pre-enrichment rejection is the recency
test on the creation timestamp; no in-run dedup set and no persisted-id set
is consulted, so a repeated video id that passes recency and enriches
successfully is enriched again and appears twice in the batch (duplicate
suppression happens only later, at merge time, against the previously
persisted table). -/
theorem no_dedup_filter (cap target : Nat) (cutoff : Int)
    (env : Candidate → CandEnv) (c : Candidate) (r : CollectedRow)
    (hcap : 2 ≤ cap) (htarget : 2 ≤ target)
    (hts : recencyReject cutoff c.createTime = false)
    (hrow : (enrich_plain (env c) c).row = some r) :
    (walkTerm cap target cutoff env [c, c] walkInit).rows = [r, r] := by
  have h0 : ¬ cap ≤ 0 := by omega
  have h1 : ¬ cap ≤ 1 := by omega
  have ht1 : ¬ target ≤ 1 := by omega
  simp only [walkTerm, walkInit]
  rw [if_neg h0, hts]
  simp only [Bool.false_eq_true, if_false, hrow]
  rw [if_neg ht1]
  split_ifs with hh1 hh2
  · exact absurd hh1 (by omega)
  · simp
  · simp

theorem no_dedup_filter_witness :
    2 ≤ 5 ∧
    recencyReject 0 (mkCand "v2").createTime = false ∧
    (enrich_plain (envOk) (mkCand "v2")).row =
      some (baseRow (mkCand "v2") (thumbPathPlain "v2")) ∧
    (walkTerm 5 5 0 (fun _ => envOk) [mkCand "v2", mkCand "v2"]
        walkInit).rows =
      [baseRow (mkCand "v2") (thumbPathPlain "v2"),
       baseRow (mkCand "v2") (thumbPathPlain "v2")] :=
  ⟨by decide, by decide, by decide,
    no_dedup_filter 5 5 0 (fun _ => envOk) (mkCand "v2")
      (baseRow (mkCand "v2") (thumbPathPlain "v2"))
      (by decide) (by decide) (by decide) (by decide)⟩
